import Mathlib

/-!
# Verification of the UFC calendar-feed generator (`src/index.ts`)

A shallow embedding of the event-to-calendar transformation pipeline:

* `UFCEvent` — the raw event record produced by the acquisition collaborator
  (the `UFCEvent` interface of the source).  The source's `url : URL` field is
  modelled by its absolute serialized form (`href`): the code only ever uses
  `event.url` in a template string (which stringifies to `href`) and
  `event.url.href`, so both coincide with this string.
* `jsParseInt` — JavaScript `parseInt(s)` (radix unspecified): leading
  whitespace (the full StrWhiteSpace set, Unicode spaces included), optional
  sign, `0x`/`0X` hex prefix, longest digit run; `none` models `NaN`.
* `jsDateMs` — the millisecond time value of `new Date(parseInt(s) * 1000)`,
  `none` when the `Date` is invalid (`NaN` parse or the ECMAScript ±8.64e15 ms
  range clip).
* `ppvTest` — the classifier `/UFC\s+\d+/.test(name)` of line 32.
* `descBody`/`mkDescription` — the sequential `description += …` construction
  of `formatEventForCalendar` (lines 68–106).
* `formatEventForCalendar` — the mapper (lines 54–128).  Ambient wall-clock
  time enters the source only as the formatted `toLocaleString` timestamp, so
  the embedding takes that formatted string as an explicit parameter `now`.
* `createICS` — the orchestrator (lines 10–49), with the two external
  collaborators (the scraper result and the `createEvents` serializer) passed
  in as parameters, returning the serializer-call trace, the files written and
  the process exit code.
-/

/-- The raw event record (`UFCEvent` interface, lines 131–142).
`url` is the absolute `href` string of the source's `URL` object. -/
structure UFCEvent where
  name : String
  date : String
  location : String
  url : String
  fightCard : List String
  mainCard : List String
  prelims : List String
  earlyPrelims : List String
  prelimsTime : Option String := none
  earlyPrelimsTime : Option String := none
deriving  DecidableEq, Repr

/-- JavaScript whitespace as used by `parseInt` (its trimmed StrWhiteSpace)
and the regex class `\s`: tab, LF, VT, FF, CR, space, NBSP, the Unicode
space separators (U+1680, U+2000–U+200A, U+202F, U+205F, U+3000), the line
and paragraph separators U+2028/U+2029, and the BOM U+FEFF. -/
def jsWSChars : List Char :=
  ['\t', '\n', '\x0b', '\x0c', '\r', ' ', '\u00A0', '\u1680',
   '\u2028', '\u2029', '\u202F', '\u205F', '\u3000', '\uFEFF']

def isWSChar (c : Char) : Bool :=
  jsWSChars.contains c || ('\u2000' ≤ c && c ≤ '\u200A')

/-- The regex class `\d`, i.e. the ASCII decimal digits. -/
def isDigitChar (c : Char) : Bool :=
  '0' ≤ c && c ≤ '9'

/-- Value of a hex digit, `none` if the character is not one. -/
def hexVal (c : Char) : Option Nat :=
  if '0' ≤ c ∧ c ≤ '9' then some (c.toNat - '0'.toNat)
  else if 'a' ≤ c ∧ c ≤ 'f' then some (c.toNat - 'a'.toNat + 10)
  else if 'A' ≤ c ∧ c ≤ 'F' then some (c.toNat - 'A'.toNat + 10)
  else none

/-- Accumulate the longest leading digit run (base `b`); `none` when empty. -/
def parseDigits (b : Nat) (val : Option Nat) : List Char → Option Nat
  | [] => val
  | c :: cs =>
    match hexVal c with
    | some v =>
      if v < b then parseDigits b (some ((val.getD 0) * b + v)) cs else val
    | none => val

/-- JavaScript `parseInt(s)` with no radix argument: skip leading whitespace,
read an optional sign, honour a `0x`/`0X` prefix (hex), then take the longest
run of digits of the base; `none` models `NaN` (no digits at all). -/
def jsParseInt (s : String) : Option Int :=
  let l := s.data.dropWhile isWSChar
  let (sign, l) : Int × List Char :=
    match l with
    | '-' :: rest => (-1, rest)
    | '+' :: rest => (1, rest)
    | _ => (1, l)
  let (base, l) : Nat × List Char :=
    match l with
    | '0' :: 'x' :: rest => (16, rest)
    | '0' :: 'X' :: rest => (16, rest)
    | _ => (10, l)
  match parseDigits base none l with
  | some n => some (sign * n)
  | none => none

/-- The time value, in milliseconds, of `new Date(parseInt(s) * 1000)`
(lines 58, 78, 87): `none` models an Invalid Date, i.e. `parseInt` returned
`NaN` or the result exceeds the ECMAScript time-value range of ±8.64e15 ms
(clipped to Invalid Date, whose `+date` is `NaN`).  Exact integers are
faithful here: the clip boundary 8.64e15 lies below 2^53, so the IEEE double
arithmetic of the source is exact wherever it can affect the clip decision. -/
def jsDateMs (s : String) : Option Int :=
  match jsParseInt s with
  | none => none
  | some n =>
    if (n * 1000).natAbs ≤ 8640000000000000 then some (n * 1000) else none

/-! ## The PPV classifier (line 32): `/UFC\s+\d+/.test(e.name)` -/

/-- After a literal `UFC`, the regex tail `\s+\d+` matches iff the (maximal)
whitespace run is non-empty and the first character after it is a digit. -/
def afterUFC (rest : List Char) : Bool :=
  !(rest.takeWhile isWSChar).isEmpty &&
    (match rest.dropWhile isWSChar with
      | d :: _ => isDigitChar d
      | [] => false)

/-- Does `/UFC\s+\d+/` match at the very start of `l`? -/
def matchesAt : List Char → Bool
  | a :: b :: c :: rest => a == 'U' && b == 'F' && c == 'C' && afterUFC rest
  | _ => false

/-- Does `/UFC\s+\d+/` match anywhere in `l` (the `test` semantics)? -/
def ppvSearch : List Char → Bool
  | [] => false
  | c :: cs => matchesAt (c :: cs) || ppvSearch cs

/-- `/UFC\s+\d+/.test(s)` (line 32). -/
def ppvTest (s : String) : Bool :=
  ppvSearch s.data

/-- The filter predicate of line 32 applied to an event. -/
def isPPV (e : UFCEvent) : Bool :=
  ppvTest e.name

/-- Follows the spec's words, for comparison with `ppvTest`: the name
contains, anywhere in the string, the literal token `UFC` followed by one or
more whitespace characters followed by one or more decimal digits. -/
def PPVNamePattern (s : String) : Prop :=
  ∃ a w ds b : List Char,
    s.data = a ++ ['U', 'F', 'C'] ++ w ++ ds ++ b ∧
    w ≠ [] ∧ (∀ c ∈ w, isWSChar c) ∧
    ds ≠ [] ∧ (∀ c ∈ ds, isDigitChar c)

/-! ## The description synthesizer (lines 68–106) -/

/-- Decimal digits of `num / den` after the point (`num < den`), by long
division, cut off after `fuel` digits.  Helper for `hoursNumStr`. -/
def fracDigits : Nat → Nat → Nat → List Char
  | 0, _, _ => []
  | _, 0, _ => []
  | fuel + 1, num, den =>
    let n10 := num * 10
    Nat.digitChar (n10 / den) :: fracDigits fuel (n10 % den) den

/-- Decimal rendering of `diffMs / 3600000` (the interpolation
`${hoursAgo}` of lines 80/91).  This approximates JavaScript's
`Number.prototype.toString` (shortest round-trip form of the IEEE double);
no claim below depends on the digits produced, only on the literal text
surrounding them. -/
def hoursNumStr (diffMs : Int) : String :=
  let n := diffMs.natAbs
  let intPart := n / 3600000
  let rem := n % 3600000
  (if diffMs < 0 then "-" else "") ++ toString intPart ++
    (if rem = 0 then "" else "." ++ ⟨fracDigits 20 rem 3600000⟩)

/-- The ` (<hoursAgo> hrs before Main)` suffix computed inside the
`if (event.prelimsTime)` / `if (event.earlyPrelimsTime)` blocks
(lines 77–81 and 86–92), given the millisecond time value of `event.date`'s
`Date` and the raw optional time field.  JavaScript semantics mirrored here:
an empty string is falsy, an Invalid Date on either side makes `+date` or
`+prelimsTime` into `NaN` so `hoursAgo > 0` is false, and
`hoursAgo = (dm − pm) / 3600000` is positive exactly when the millisecond
difference is (IEEE subtraction of exact time values and division by the
positive constant both preserve the sign). -/
def hoursSuffix (dateMs : Option Int) (timeField : Option String) : String :=
  match timeField with
  | none => ""
  | some t =>
    if t.isEmpty then ""
    else
      match dateMs, jsDateMs t with
      | some dm, some pm =>
        if 0 < dm - pm then
          " (" ++ hoursNumStr (dm - pm) ++ " hrs before Main)"
        else ""
      | _, _ => ""

/-- The separator line emitted after each card header (20 dashes). -/
def sepLine : String := "--------------------\n"

/-- Everything `description` accumulates before the final
`\nAccurate as of ${timestamp}` append: the sequence of `description += …`
statements of lines 70–96, each `if`-block contributing its piece. -/
def descBody (e : UFCEvent) : String :=
  (if e.fightCard.isEmpty then "" else String.intercalate "\n" e.fightCard ++ "\n")
  ++ (if e.mainCard.isEmpty then ""
      else "Main Card\n" ++ sepLine ++ String.intercalate "\n" e.mainCard ++ "\n")
  ++ (if e.prelims.isEmpty then ""
      else "\nPrelims" ++ hoursSuffix (jsDateMs e.date) e.prelimsTime
           ++ "\n" ++ sepLine ++ String.intercalate "\n" e.prelims ++ "\n")
  ++ (if e.earlyPrelims.isEmpty then ""
      else "\nEarly Prelims" ++ hoursSuffix (jsDateMs e.date) e.earlyPrelimsTime
           ++ "\n" ++ sepLine ++ String.intercalate "\n" e.earlyPrelims ++ "\n")
  ++ ("\n" ++ e.url ++ "\n")

/-- The full description string: body then the build-provenance footer
(line 106), where `now` is the formatted wall-clock timestamp. -/
def mkDescription (e : UFCEvent) (now : String) : String :=
  descBody e ++ ("\nAccurate as of " ++ now)

/-! ## The calendar entry mapper (lines 54–128) -/

/-- Civil date from a day count since 1970-01-01 (proleptic Gregorian):
year, 1-based month, day. -/
def civilFromDays (z : Int) : Int × Nat × Nat :=
  let z' := z + 719468
  let era := z'.fdiv 146097
  let doe := (z'.fmod 146097).toNat
  let yoe := (doe - doe / 1460 + doe / 36524 - doe / 146096) / 365
  let doy := doe - (365 * yoe + yoe / 4 - yoe / 100)
  let mp := (5 * doy + 2) / 153
  let d := doy - (153 * mp + 2) / 5 + 1
  let m := if mp < 10 then mp + 3 else mp - 9
  (era * 400 + yoe + (if m ≤ 2 then 1 else 0), m, d)

/-- The `DateArray` of lines 59–65 — (fullYear, month+1, date, hours,
minutes) of a valid `Date` with time value `ms` milliseconds.  The source
reads the components in the process's local timezone; the embedding fixes
that ambient timezone to UTC, which is immaterial to every claim below
(they only use that `start` is a function of `event.date`). -/
def epochToStart (ms : Int) : Int × Nat × Nat × Nat × Nat :=
  let secs := ms.fdiv 1000
  let days := secs.fdiv 86400
  let sod := (secs.fmod 86400).toNat
  let (y, m, d) := civilFromDays days
  (y, m, d, sod / 3600, sod % 3600 / 60)

/-- One VAlarm of the `alarms` array (lines 116–124). -/
structure Alarm where
  action : String
  description : String
  triggerMinutes : Nat
  triggerBefore : Bool
deriving DecidableEq, Repr

/-- The `duration` object (line 66). -/
structure Duration where
  hours : Nat
deriving DecidableEq, Repr

/-- The `EventAttributes` record handed to the serializer.  `start` is `none`
when `new Date(parseInt(event.date) * 1000)` is an Invalid Date — `parseInt`
returned `NaN` or the time value is out of range — in which case the source
produces an all-`NaN` date array (an invalid start time). -/
structure EventAttributes where
  start : Option (Int × Nat × Nat × Nat × Nat)
  duration : Duration
  title : String
  description : String
  location : String
  uid : String
  calName : String
  alarms : List Alarm
deriving DecidableEq, Repr

/-- `formatEventForCalendar(event, calName)` (lines 54–128); `now` is the
formatted wall-clock timestamp read at line 98. -/
def formatEventForCalendar (event : UFCEvent) (calName : String) (now : String) :
    EventAttributes :=
  { start := (jsDateMs event.date).map epochToStart
    duration := ⟨3⟩
    title := event.name
    description := mkDescription event now
    location := event.location
    uid := event.url
    calName := calName
    alarms := [⟨"display", event.name ++ " starting soon!", 30, true⟩] }

/-! ## The orchestrator `createICS` (lines 10–49) -/

/-- Observable outcome of one `createICS` run: the entry lists handed to the
serializer (in order), the files written (name, contents, in order), and the
process exit code. -/
structure RunResult where
  serCalls : List (List EventAttributes)
  files : List (String × String)
  exitCode : Nat
deriving DecidableEq, Repr

/-- `createICS` (lines 10–49).  `fetched` is the scraper's result (`none`
models a null/undefined list, triggering the `!events?.length` guard), `ser`
the external `createEvents` serializer (`Except.error` models a returned
`error`), `now` the wall-clock timestamp.  A thrown error is caught at line
45 and sets the exit code to 1. -/
def createICS (fetched : Option (List UFCEvent))
    (ser : List EventAttributes → Except String String) (now : String) :
    RunResult :=
  match fetched with
  | none => ⟨[], [], 1⟩
  | some events =>
    if events.isEmpty then ⟨[], [], 1⟩
    else
      let formattedEvents := events.map (formatEventForCalendar · "UFC" now)
      match ser formattedEvents with
      | .error _ => ⟨[formattedEvents], [], 1⟩
      | .ok allVal =>
        let ppvEvents := events.filter isPPV
        let formattedPPV := ppvEvents.map (formatEventForCalendar · "UFC-PPV" now)
        match ser formattedPPV with
        | .error _ =>
          ⟨[formattedEvents, formattedPPV], [("UFC.ics", allVal)], 1⟩
        | .ok ppvVal =>
          ⟨[formattedEvents, formattedPPV],
            [("UFC.ics", allVal), ("UFC-PPV.ics", ppvVal)], 0⟩

/-! ## Helper lemmas -/

/-- String append is associative. -/
theorem strAppend_assoc (a b c : String) : a ++ b ++ c = a ++ (b ++ c) :=
  String.ext (by simp [String.data_append, List.append_assoc])

theorem isEmpty_false_of_ne_nil {α : Type} {l : List α} (h : l ≠ []) :
    l.isEmpty = false := by
  cases l with
  | nil => exact absurd rfl h
  | cons _ _ => rfl

theorem strIsEmpty_false_of_ne (t : String) (h : t ≠ "") : t.isEmpty = false := by
  rw [Bool.eq_false_iff]
  intro he
  exact h ((String.isEmpty_iff t).1 he)

theorem takeWhile_append_all {α : Type} (p : α → Bool) (w r : List α)
    (hw : ∀ c ∈ w, p c) : (w ++ r).takeWhile p = w ++ r.takeWhile p := by
  induction w with
  | nil => simp
  | cons c cs ih =>
    have hc : p c = true := hw c (List.mem_cons_self c cs)
    simp [List.takeWhile_cons, hc, ih fun x hx => hw x (List.mem_cons_of_mem _ hx)]

theorem dropWhile_append_all {α : Type} (p : α → Bool) (w r : List α)
    (hw : ∀ c ∈ w, p c) : (w ++ r).dropWhile p = r.dropWhile p := by
  induction w with
  | nil => simp
  | cons c cs ih =>
    have hc : p c = true := hw c (List.mem_cons_self c cs)
    simp [List.dropWhile_cons, hc, ih fun x hx => hw x (List.mem_cons_of_mem _ hx)]

theorem not_ws_of_digit {c : Char} (h : isDigitChar c = true) : isWSChar c = false := by
  rw [Bool.eq_false_iff]
  intro hw
  simp only [isWSChar, Bool.or_eq_true] at hw
  rcases hw with hmem | hrange
  · have hc : c ∈ jsWSChars := by simpa using hmem
    have hall : ∀ x ∈ jsWSChars, isDigitChar x = false := by decide
    rw [hall c hc] at h
    exact absurd h (by decide)
  · rw [Bool.and_eq_true, decide_eq_true_eq, decide_eq_true_eq] at hrange
    simp only [isDigitChar, Bool.and_eq_true, decide_eq_true_eq] at h
    exact absurd (le_trans hrange.1 h.2) (by decide)

theorem afterUFC_iff (rest : List Char) :
    afterUFC rest = true ↔
      ∃ w ds b, rest = w ++ ds ++ b ∧ w ≠ [] ∧ (∀ c ∈ w, isWSChar c) ∧
        ds ≠ [] ∧ (∀ c ∈ ds, isDigitChar c) := by
  constructor
  · intro h
    unfold afterUFC at h
    rw [Bool.and_eq_true] at h
    obtain ⟨h1, h2⟩ := h
    have hwne : rest.takeWhile isWSChar ≠ [] := by
      intro hnil
      rw [hnil] at h1
      exact absurd h1 (by decide)
    cases hd : rest.dropWhile isWSChar with
    | nil => rw [hd] at h2; exact absurd h2 (by decide)
    | cons d t =>
      rw [hd] at h2
      refine ⟨rest.takeWhile isWSChar, [d], t, ?_, hwne,
        fun c hc => List.mem_takeWhile_imp hc, by simp, by simpa using h2⟩
      have hsplit := List.takeWhile_append_dropWhile (p := isWSChar) (l := rest)
      rw [hd] at hsplit
      conv_lhs => rw [← hsplit]
      simp
  · rintro ⟨w, ds, b, rfl, hwne, hws, hdsne, hds⟩
    cases ds with
    | nil => exact absurd rfl hdsne
    | cons d t =>
      have hdd : isDigitChar d = true := hds d (List.mem_cons_self d t)
      have hdw : isWSChar d = false := not_ws_of_digit hdd
      unfold afterUFC
      rw [List.append_assoc, takeWhile_append_all _ _ _ hws,
        dropWhile_append_all _ _ _ hws]
      simp [List.takeWhile_cons, List.dropWhile_cons, hdw, hdd,
        isEmpty_false_of_ne_nil hwne]

theorem matchesAt_iff (l : List Char) :
    matchesAt l = true ↔
      ∃ rest, l = 'U' :: 'F' :: 'C' :: rest ∧ afterUFC rest = true := by
  match l with
  | [] => simp [matchesAt]
  | [a] => simp [matchesAt]
  | [a, b] => simp [matchesAt]
  | a :: b :: c :: rest =>
    simp only [matchesAt, Bool.and_eq_true, beq_iff_eq, List.cons.injEq]
    constructor
    · rintro ⟨⟨⟨rfl, rfl⟩, rfl⟩, h⟩
      exact ⟨rest, ⟨rfl, rfl, rfl, rfl⟩, h⟩
    · rintro ⟨r, ⟨rfl, rfl, rfl, rfl⟩, h⟩
      exact ⟨⟨⟨rfl, rfl⟩, rfl⟩, h⟩

theorem ppvSearch_iff (l : List Char) :
    ppvSearch l = true ↔ ∃ a b, l = a ++ b ∧ matchesAt b = true := by
  induction l with
  | nil =>
    simp only [ppvSearch]
    constructor
    · intro h; exact absurd h (by decide)
    · rintro ⟨a, b, hab, hm⟩
      obtain ⟨rfl, rfl⟩ := List.append_eq_nil.1 hab.symm
      exact absurd hm (by decide)
  | cons c t ih =>
    simp only [ppvSearch, Bool.or_eq_true, ih]
    constructor
    · rintro (h | ⟨a, b, rfl, hm⟩)
      · exact ⟨[], c :: t, rfl, h⟩
      · exact ⟨c :: a, b, rfl, hm⟩
    · rintro ⟨a, b, hab, hm⟩
      cases a with
      | nil =>
        simp only [List.nil_append] at hab
        subst hab
        exact Or.inl hm
      | cons x a' =>
        simp only [List.cons_append, List.cons.injEq] at hab
        obtain ⟨rfl, rfl⟩ := hab
        exact Or.inr ⟨a', b, rfl, hm⟩

theorem ppvTest_iff (s : String) : ppvTest s = true ↔ PPVNamePattern s := by
  unfold ppvTest PPVNamePattern
  rw [ppvSearch_iff]
  constructor
  · rintro ⟨a, b, hab, hm⟩
    rw [matchesAt_iff] at hm
    obtain ⟨rest, rfl, hafter⟩ := hm
    rw [afterUFC_iff] at hafter
    obtain ⟨w, ds, b', hrest, hwne, hws, hdsne, hds⟩ := hafter
    refine ⟨a, w, ds, b', ?_, hwne, hws, hdsne, hds⟩
    rw [hab, hrest]
    simp
  · rintro ⟨a, w, ds, b, hdata, hwne, hws, hdsne, hds⟩
    refine ⟨a, 'U' :: 'F' :: 'C' :: (w ++ ds ++ b), ?_, ?_⟩
    · rw [hdata]; simp
    · rw [matchesAt_iff]
      exact ⟨w ++ ds ++ b, rfl,
        (afterUFC_iff _).2 ⟨w, ds, b, rfl, hwne, hws, hdsne, hds⟩⟩

/-- C1: the classifier of line 32 returns true iff the event's name contains,
anywhere in the string, the literal token `UFC` followed by one or more
whitespace characters followed by one or more decimal digits; in particular
`"UFC 300"` and `"UFC 1"` classify as PPV while `"UFC Fight Night: X vs Y"`
and `"Contender Series"` do not. -/
theorem ppv_classifier_correct :
    (∀ e : UFCEvent, isPPV e = true ↔ PPVNamePattern e.name) ∧
    ppvTest "UFC 300" = true ∧ ppvTest "UFC 1" = true ∧
    ppvTest "UFC Fight Night: X vs Y" = false ∧
    ppvTest "Contender Series" = false :=
  ⟨fun e => ppvTest_iff e.name, by decide, by decide, by decide, by decide⟩

/-! ## Concrete events used in witnesses and counterexamples -/

/-- The end-to-end example event of the spec (§8). -/
def exEvent : UFCEvent :=
  ⟨"UFC 300", "1700000000", "Las Vegas", "https://example.com/e1",
    ["A vs B"], [], [], [], none, none⟩

/-- An event with no `prelimsTime`, whose early-prelims block nevertheless
carries a positive delta: `earlyPrelims` start at epoch 0, the main card at
epoch 3600. -/
def earlyOnlyEvent : UFCEvent :=
  ⟨"X", "3600", "L", "https://example.com/x",
    [], [], [], ["A vs B"], none, some "0"⟩

/-! ## Theorems for the claims -/

/-- C4: for every RawEvent with numeric `date`, the produced entry's `uid`
equals the source event's absolute url string (line 114: `uid: event.url.href`). -/
theorem uid_eq_event_url (e : UFCEvent) (cal now : String)
    (h : (jsParseInt e.date).isSome = true) :
    (formatEventForCalendar e cal now).uid = e.url := rfl

theorem uid_eq_event_url_witness :
    (jsParseInt exEvent.date).isSome = true ∧
      (formatEventForCalendar exEvent "UFC" "T").uid = exEvent.url :=
  ⟨by decide, uid_eq_event_url exEvent "UFC" "T" (by decide)⟩

/-- C5: re-running the mapper on the same event with two different wall-clock
timestamps yields identical `uid`, `title`, `start`, `duration` and
`location`; the description always has the shape
`body ++ "\nAccurate as of " ++ timestamp` with `body` independent of the
timestamp, so the trailing provenance stamp is the only part that can differ
between runs. -/
theorem mapper_run_deterministic (e : UFCEvent) (cal t₁ t₂ : String) :
    (formatEventForCalendar e cal t₁).uid = (formatEventForCalendar e cal t₂).uid ∧
    (formatEventForCalendar e cal t₁).title = (formatEventForCalendar e cal t₂).title ∧
    (formatEventForCalendar e cal t₁).start = (formatEventForCalendar e cal t₂).start ∧
    (formatEventForCalendar e cal t₁).duration = (formatEventForCalendar e cal t₂).duration ∧
    (formatEventForCalendar e cal t₁).location = (formatEventForCalendar e cal t₂).location ∧
    ∃ body : String, ∀ t : String,
      (formatEventForCalendar e cal t).description = body ++ ("\nAccurate as of " ++ t) :=
  ⟨rfl, rfl, rfl, rfl, rfl, descBody e, fun _ => rfl⟩

/-- C6: the produced entry's duration is exactly 3 hours for every input
(line 66: `const duration = { hours: 3 }`). -/
theorem duration_always_three_hours (e : UFCEvent) (cal now : String) :
    (formatEventForCalendar e cal now).duration = ⟨3⟩ := rfl

/-- C7: every produced entry carries exactly one alarm — a display reminder
triggered 30 minutes before start, whose text is the event's title followed
by `" starting soon!"` (lines 116–124). -/
theorem single_display_alarm (e : UFCEvent) (cal now : String) :
    (formatEventForCalendar e cal now).alarms =
      [⟨"display", (formatEventForCalendar e cal now).title ++ " starting soon!",
        30, true⟩] := rfl

/-- C8: an empty or absent acquisition result makes the run fail (exit code 1)
with neither output file written (the `!events?.length` guard of line 14
throws, the catch of lines 45–48 sets the failure exit code). -/
theorem empty_fetch_is_fatal (fetched : Option (List UFCEvent))
    (ser : List EventAttributes → Except String String) (now : String)
    (h : fetched = none ∨ fetched = some []) :
    (createICS fetched ser now).files = [] ∧
      (createICS fetched ser now).exitCode = 1 := by
  rcases h with rfl | rfl <;> exact ⟨rfl, rfl⟩

theorem empty_fetch_is_fatal_witness :
    (createICS none (fun _ => Except.ok "") "").files = [] ∧
      (createICS none (fun _ => Except.ok "") "").exitCode = 1 :=
  empty_fetch_is_fatal none (fun _ => Except.ok "") "" (Or.inl rfl)

/-- C9: if serializing the full feed reports an error, the run aborts there
(line 24: `if (allErr) throw allErr`): the serializer trace shows exactly the
one full-feed call — the PPV feed is never attempted — no file at all is
written, and the exit code is 1. -/
theorem full_feed_error_aborts_run (events : List UFCEvent)
    (ser : List EventAttributes → Except String String) (now msg : String)
    (hne : events ≠ [])
    (herr : ser (events.map (formatEventForCalendar · "UFC" now)) =
      Except.error msg) :
    createICS (some events) ser now =
      ⟨[events.map (formatEventForCalendar · "UFC" now)], [], 1⟩ := by
  simp [createICS, isEmpty_false_of_ne_nil hne, herr]

theorem full_feed_error_aborts_run_witness :
    createICS (some [exEvent]) (fun _ => Except.error "boom") "T" =
      ⟨[[formatEventForCalendar exEvent "UFC" "T"]], [], 1⟩ :=
  full_feed_error_aborts_run [exEvent] (fun _ => Except.error "boom") "T" "boom"
    (by simp) rfl

/-- C10: for a PPV-classified event, the entry produced for the PPV feed and
the entry produced for the full feed (same wall-clock time) agree on every
field except `calName`, which is `"UFC-PPV"` and `"UFC"` respectively (the
mapper uses its `calName` argument only at line 115). -/
theorem ppv_and_full_entries_agree (e : UFCEvent) (now : String)
    (h : isPPV e = true) :
    (formatEventForCalendar e "UFC-PPV" now).start =
        (formatEventForCalendar e "UFC" now).start ∧
    (formatEventForCalendar e "UFC-PPV" now).duration =
        (formatEventForCalendar e "UFC" now).duration ∧
    (formatEventForCalendar e "UFC-PPV" now).title =
        (formatEventForCalendar e "UFC" now).title ∧
    (formatEventForCalendar e "UFC-PPV" now).description =
        (formatEventForCalendar e "UFC" now).description ∧
    (formatEventForCalendar e "UFC-PPV" now).location =
        (formatEventForCalendar e "UFC" now).location ∧
    (formatEventForCalendar e "UFC-PPV" now).uid =
        (formatEventForCalendar e "UFC" now).uid ∧
    (formatEventForCalendar e "UFC-PPV" now).alarms =
        (formatEventForCalendar e "UFC" now).alarms ∧
    (formatEventForCalendar e "UFC-PPV" now).calName = "UFC-PPV" ∧
    (formatEventForCalendar e "UFC" now).calName = "UFC" :=
  ⟨rfl, rfl, rfl, rfl, rfl, rfl, rfl, rfl, rfl⟩

theorem ppv_and_full_entries_agree_witness :
    isPPV exEvent = true ∧
      (formatEventForCalendar exEvent "UFC-PPV" "T").uid =
        (formatEventForCalendar exEvent "UFC" "T").uid :=
  ⟨by decide, (ppv_and_full_entries_agree exEvent "T" (by decide)).2.2.2.2.2.1⟩

/-- C3: for a non-empty `fightCard`, the description starts with the entries
joined by newline, verbatim and with no header, followed by a trailing
newline (line 70) — hence this block appears before any `"Main Card"`
header, which can only occur in the remainder. -/
theorem fight_card_opens_description (e : UFCEvent) (cal now : String)
    (h : e.fightCard ≠ []) :
    ∃ rest : String, (formatEventForCalendar e cal now).description =
      (String.intercalate "\n" e.fightCard ++ "\n") ++ rest := by
  refine ⟨(if e.mainCard.isEmpty then ""
      else "Main Card\n" ++ sepLine ++ String.intercalate "\n" e.mainCard ++ "\n")
    ++ (if e.prelims.isEmpty then ""
      else "\nPrelims" ++ hoursSuffix (jsDateMs e.date) e.prelimsTime
           ++ "\n" ++ sepLine ++ String.intercalate "\n" e.prelims ++ "\n")
    ++ (if e.earlyPrelims.isEmpty then ""
      else "\nEarly Prelims" ++ hoursSuffix (jsDateMs e.date) e.earlyPrelimsTime
           ++ "\n" ++ sepLine ++ String.intercalate "\n" e.earlyPrelims ++ "\n")
    ++ ("\n" ++ e.url ++ "\n") ++ ("\nAccurate as of " ++ now), ?_⟩
  apply String.ext
  simp [formatEventForCalendar, mkDescription, descBody,
    isEmpty_false_of_ne_nil h, String.data_append, List.append_assoc]

theorem fight_card_opens_description_witness :
    exEvent.fightCard ≠ [] ∧
      ∃ rest : String, (formatEventForCalendar exEvent "UFC" "T").description =
        (String.intercalate "\n" exEvent.fightCard ++ "\n") ++ rest :=
  ⟨by decide, fight_card_opens_description exEvent "UFC" "T" (by decide)⟩

/-- Follows the spec's words for claim C2, refined by JavaScript `Date`
validity: `prelimsTime` is present, both it and `date` denote valid (in the
±8.64e15 ms range) times, and the prelims time value is numerically less
than the main-card time value. -/
def PrelimsBeforeMain (e : UFCEvent) : Prop :=
  ∃ t pm dm, e.prelimsTime = some t ∧ t ≠ "" ∧
    jsDateMs t = some pm ∧ jsDateMs e.date = some dm ∧ pm < dm

/-- C2 as stated is FALSE on the code: for `earlyOnlyEvent`, `prelimsTime`
is absent, yet the description does contain `" hrs before Main)"` — the
early-prelims block (lines 84–94) appends the very same suffix to its
`"Early Prelims"` header whenever `earlyPrelimsTime` precedes `date`. -/
theorem prelims_suffix_claim_counterexample :
    earlyOnlyEvent.prelimsTime = none ∧
      " hrs before Main)".data <:+:
        (formatEventForCalendar earlyOnlyEvent "UFC" "T").description.data :=
  ⟨rfl, by decide⟩

/-- C2 (amended): if `prelims` is non-empty and `prelimsTime` is present,
denotes — like `date` — a valid in-range time, and is numerically less than
`date`, the description contains `" hrs before Main)"` (attached to the
`"Prelims"` header); if `prelimsTime` is absent, malformed, out of the
`Date` range, equal to or exceeding `date` (or `date` itself is invalid),
the suffix the code attaches to the `"Prelims"` header is empty — though
the identical suffix may still appear attached to the `"Early Prelims"`
header. -/
theorem prelims_suffix_amended (e : UFCEvent) (cal now : String) :
    (e.prelims ≠ [] → PrelimsBeforeMain e →
      " hrs before Main)".data <:+:
        (formatEventForCalendar e cal now).description.data) ∧
    (¬ PrelimsBeforeMain e →
      hoursSuffix (jsDateMs e.date) e.prelimsTime = "") := by
  constructor
  · intro hne hb
    obtain ⟨t, pm, dm, hpt, htne, hp, hd, hlt⟩ := hb
    have hpos : 0 < dm - pm := by omega
    have hsuf : hoursSuffix (jsDateMs e.date) e.prelimsTime =
        " (" ++ hoursNumStr (dm - pm) ++ " hrs before Main)" := by
      simp [hoursSuffix, hpt, strIsEmpty_false_of_ne t htne, hd, hp, hpos]
    refine ⟨((if e.fightCard.isEmpty then ""
        else String.intercalate "\n" e.fightCard ++ "\n")
      ++ (if e.mainCard.isEmpty then ""
        else "Main Card\n" ++ sepLine ++ String.intercalate "\n" e.mainCard ++ "\n")
      ++ "\nPrelims" ++ " (" ++ hoursNumStr (dm - pm)).data,
      ("\n" ++ sepLine ++ String.intercalate "\n" e.prelims ++ "\n"
      ++ (if e.earlyPrelims.isEmpty then ""
        else "\nEarly Prelims" ++ hoursSuffix (jsDateMs e.date) e.earlyPrelimsTime
             ++ "\n" ++ sepLine ++ String.intercalate "\n" e.earlyPrelims ++ "\n")
      ++ ("\n" ++ e.url ++ "\n") ++ ("\nAccurate as of " ++ now)).data, ?_⟩
    simp [formatEventForCalendar, mkDescription, descBody,
      isEmpty_false_of_ne_nil hne, hsuf, String.data_append, List.append_assoc]
  · intro hnb
    cases hpt : e.prelimsTime with
    | none => simp [hoursSuffix]
    | some t =>
      by_cases hte : t = ""
      · subst hte; simp [hoursSuffix, show "".isEmpty = true from rfl]
      · cases hd : jsDateMs e.date with
        | none => simp [hoursSuffix, strIsEmpty_false_of_ne t hte, hd]
        | some dm =>
          cases hp : jsDateMs t with
          | none => simp [hoursSuffix, strIsEmpty_false_of_ne t hte, hd, hp]
          | some pm =>
            have hnlt : ¬ (0 < dm - pm) := by
              intro hpos
              exact hnb ⟨t, pm, dm, hpt, hte, hp, hd, by omega⟩
            simp [hoursSuffix, strIsEmpty_false_of_ne t hte, hd, hp, hnlt]

/-- A concrete prelims event exercising the positive branch of the amended
claim C2: prelims start one hour before the main card. -/
def prelimsEvent : UFCEvent :=
  ⟨"Y", "3600", "L", "https://example.com/y",
    [], [], ["A vs B"], [], some "0", none⟩

theorem prelims_suffix_amended_witness :
    (prelimsEvent.prelims ≠ [] ∧ PrelimsBeforeMain prelimsEvent) ∧
      " hrs before Main)".data <:+:
        (formatEventForCalendar prelimsEvent "UFC" "T").description.data :=
  ⟨⟨by decide, ⟨"0", 0, 3600000, rfl, by decide, by decide, by decide, by decide⟩⟩,
    (prelims_suffix_amended prelimsEvent "UFC" "T").1 (by decide)
      ⟨"0", 0, 3600000, rfl, by decide, by decide, by decide, by decide⟩⟩
